import Mathlib

/-!
A shallow embedding of core/common/ccprovider/sigcdspackage.go and
core/common/ccprovider/cdspackage.go (hyperledger fabric fork):
chaincode deployment-spec packages, their integrity-digest computation,
validation and write-once filesystem install, in both the unsigned
(CDSPackage) and signed (SignedCDSPackage) variants.

Modelling conventions:
- byte strings are `List Nat`; Go strings are modelled by their byte
  sequences;
- the external BCCSP hash provider is a parameter `H : Bytes → Bytes`
  (the digest function of a fresh hash instance).  Go's stateful
  `hash.Hash` interface is modelled by tracking the bytes written so
  far; `Sum b` appends the digest of the written bytes to `b` (Go
  `hash.Sum` semantics), `Reset` clears the written bytes;
- the external deterministic binary codec (protobuf) is modelled by an
  explicit executable length-prefixed codec for each message type;
  decoding rejects malformed buffers;
- Go nil pointers and the nil-able `InstantiationPolicy` byte slice are
  modelled with `Option`; a Go `panic` is a distinguished result;
- the external package store (filesystem) is a map from paths to file
  contents, `Bytes → Option Bytes`.
-/

abbrev Bytes := List Nat

/-- One constructor per distinct fmt.Errorf site used by the embedded code. -/
inductive ErrKind where
  | uninitializedPackage
  | nilSignedDepSpec
  | nilDepSpec
  | nilData
  | invalidChaincodeData
  | unmarshalError
  | dataMismatch
  | failedUnmarshalEnvelope
  | extractionError
  | invalidEnvelopeType
  | errorGettingDepSpec
  | instantiationPolicyNil
  | chaincodeExists
  | notFound
  | nilEnv
deriving DecidableEq, Repr

/-- Outcome of a Go function that may return an error or panic. -/
inductive GoResult (α : Type) where
  | ok : α → GoResult α
  | err : ErrKind → GoResult α
  | panicked : GoResult α
deriving DecidableEq, Repr

/-! ### Length-prefixed codec primitives (model of the external binary codec) -/

/-- Encode a byte string as length followed by contents. -/
def encBytes (b : Bytes) : Bytes := b.length :: b

/-- Decode one length-prefixed byte string, returning it and the rest. -/
def decBytes (s : Bytes) : Option (Bytes × Bytes) :=
  match s with
  | [] => none
  | n :: rest => if n ≤ rest.length then some (rest.take n, rest.drop n) else none

/-- Encode an optional byte string (models a nil-able Go byte slice). -/
def encOptBytes (o : Option Bytes) : Bytes :=
  match o with
  | none => [0]
  | some b => 1 :: encBytes b

/-- Decode an optional byte string. -/
def decOptBytes (s : Bytes) : Option (Option Bytes × Bytes) :=
  match s with
  | 0 :: rest => some (none, rest)
  | 1 :: rest => (decBytes rest).map (fun p => (some p.1, p.2))
  | _ => none

/-- Encode a list of byte strings: count, then each length-prefixed. -/
def encBytesList (l : List Bytes) : Bytes :=
  l.length :: (l.map encBytes).flatten

/-- Decode `n` length-prefixed byte strings. -/
def decBytesN (n : Nat) (s : Bytes) : Option (List Bytes × Bytes) :=
  match n with
  | 0 => some ([], s)
  | m + 1 =>
    match decBytes s with
    | none => none
    | some (b, rest) =>
      match decBytesN m rest with
      | none => none
      | some (l, rest2) => some (b :: l, rest2)

/-- Decode a list of byte strings. -/
def decBytesList (s : Bytes) : Option (List Bytes × Bytes) :=
  match s with
  | [] => none
  | n :: rest => decBytesN n rest



/-! ### Data model (protos/peer and protos/common, fields used by this code) -/

/-- protos/peer ChaincodeID: Name and Version (strings, modelled as bytes). -/
structure ChaincodeId where
  Name : Bytes
  Version : Bytes
deriving DecidableEq, Repr

/-- protos/peer ChaincodeSpec; only the ChaincodeId field is read here. -/
structure ChaincodeSpec where
  chaincodeId : ChaincodeId
deriving DecidableEq, Repr

/-- protos/peer ChaincodeDeploymentSpec; fields read by this code. -/
structure ChaincodeDeploymentSpec where
  chaincodeSpec : ChaincodeSpec
  CodePackage : Bytes
deriving DecidableEq, Repr

/-- Codec for ChaincodeDeploymentSpec (model of proto.Marshal). -/
def marshalCDS (cds : ChaincodeDeploymentSpec) : Bytes :=
  encBytes cds.chaincodeSpec.chaincodeId.Name ++
    encBytes cds.chaincodeSpec.chaincodeId.Version ++
    encBytes cds.CodePackage

/-- Codec for ChaincodeDeploymentSpec (model of proto.Unmarshal); a
valid buffer is exactly a full encoding of a spec. -/
def unmarshalCDS (b : Bytes) : Option ChaincodeDeploymentSpec :=
  match decBytes b with
  | none => none
  | some (name, r1) =>
    match decBytes r1 with
    | none => none
    | some (version, r2) =>
      match decBytes r2 with
      | none => none
      | some (codePackage, r3) =>
        if r3 = [] then some ⟨⟨⟨name, version⟩⟩, codePackage⟩ else none

/-- protos/peer Endorsement; only the Endorser identity bytes are read here. -/
structure Endorsement where
  Endorser : Bytes
deriving DecidableEq, Repr

/-- protos/peer SignedChaincodeDeploymentSpec: raw encoded deployment
spec, nil-able instantiation policy bytes, ordered owner endorsements. -/
structure SignedChaincodeDeploymentSpec where
  ChaincodeDeploymentSpec : Bytes
  InstantiationPolicy : Option Bytes
  OwnerEndorsements : List Endorsement
deriving DecidableEq, Repr

/-- Codec for SignedChaincodeDeploymentSpec (model of proto.Marshal). -/
def marshalSignedCDS (scds : SignedChaincodeDeploymentSpec) : Bytes :=
  encBytes scds.ChaincodeDeploymentSpec ++
    encOptBytes scds.InstantiationPolicy ++
    encBytesList (scds.OwnerEndorsements.map Endorsement.Endorser)

/-- Codec for SignedChaincodeDeploymentSpec (model of proto.Unmarshal). -/
def unmarshalSignedCDS (b : Bytes) : Option SignedChaincodeDeploymentSpec :=
  match decBytes b with
  | none => none
  | some (cdsBytes, r1) =>
    match decOptBytes r1 with
    | none => none
    | some (pol, r2) =>
      match decBytesList r2 with
      | none => none
      | some (ends, r3) =>
        if r3 = [] then some ⟨cdsBytes, pol, ends.map Endorsement.mk⟩ else none

/-! ### Hash provider (external BCCSP, §6 of the spec)

`H : Bytes → Bytes` is the digest function of the provider; a Go
`hash.Hash` instance is the list of bytes written so far.  Go's
`h.Sum(b)` appends the digest of the written bytes to `b` and does not
change the state; `h.Write(b)` appends `b` to the state; `h.Reset()`
clears it.  A fresh instance has empty state. -/

/-- Go hash.Sum: append the digest of the written bytes to the argument. -/
def hashSum (H : Bytes → Bytes) (written : Bytes) (arg : Bytes) : Bytes :=
  arg ++ H written

/-! ### Digest records: CDSData (unsigned) and SignedCDSData (signed) -/

/-- CDSData from cdspackage.go: the digest record persisted for a
CDSPackage in ChaincodeData. -/
structure CDSData where
  CodeHash : Bytes
  MetaDataHash : Bytes
deriving DecidableEq, Repr

/-- CDSData.Equals: bytes.Equal on each field, nil other always unequal
(the Go receiver compares against a possibly-nil pointer). -/
def CDSData.Equals (data : CDSData) (other : Option CDSData) : Bool :=
  match other with
  | none => false
  | some o => data.CodeHash = o.CodeHash ∧ data.MetaDataHash = o.MetaDataHash

/-- Codec for CDSData (model of proto.Marshal in getCDSData). -/
def marshalCDSData (d : CDSData) : Bytes :=
  encBytes d.CodeHash ++ encBytes d.MetaDataHash

/-- Codec for CDSData (model of proto.Unmarshal in ValidateCC). -/
def unmarshalCDSData (b : Bytes) : Option CDSData :=
  match decBytes b with
  | none => none
  | some (ch, r1) =>
    match decBytes r1 with
    | none => none
    | some (mh, r2) => if r2 = [] then some ⟨ch, mh⟩ else none

/-- SignedCDSData from sigcdspackage.go: the digest record persisted for
a SignedCDSPackage in ChaincodeData. -/
structure SignedCDSData where
  CodeHash : Bytes
  MetaDataHash : Bytes
  SignatureHash : Bytes
deriving DecidableEq, Repr

/-- SignedCDSData.Equals: bytes.Equal on each field, nil other always
unequal. -/
def SignedCDSData.Equals (data : SignedCDSData) (other : Option SignedCDSData) : Bool :=
  match other with
  | none => false
  | some o =>
    data.CodeHash = o.CodeHash ∧ data.MetaDataHash = o.MetaDataHash ∧
      data.SignatureHash = o.SignatureHash

/-- Codec for SignedCDSData (model of proto.Marshal in getCDSData). -/
def marshalSignedCDSData (d : SignedCDSData) : Bytes :=
  encBytes d.CodeHash ++ encBytes d.MetaDataHash ++ encBytes d.SignatureHash

/-- Codec for SignedCDSData (model of proto.Unmarshal in ValidateCC). -/
def unmarshalSignedCDSData (b : Bytes) : Option SignedCDSData :=
  match decBytes b with
  | none => none
  | some (ch, r1) =>
    match decBytes r1 with
    | none => none
    | some (mh, r2) =>
      match decBytes r2 with
      | none => none
      | some (sh, r3) => if r3 = [] then some ⟨ch, mh, sh⟩ else none

/-! ### ChaincodeData (fields used by this code) -/

/-- ChaincodeData: the external-facing record {Name, Version, Data}
returned by InitFromBuffer and consumed by ValidateCC. -/
structure ChaincodeData where
  Name : Bytes
  Version : Bytes
  Data : Bytes
deriving DecidableEq, Repr

/-! ### CDSPackage (unsigned variant, cdspackage.go) -/

/-- CDSPackage: buf, depSpec, data; each nil-able (Option). -/
structure CDSPackage where
  buf : Option Bytes
  depSpec : Option ChaincodeDeploymentSpec
  data : Option CDSData
deriving DecidableEq, Repr

/-- The digest computation of CDSPackage.getCDSData on a non-nil spec.
CodeHash is hash.Sum(cds.CodePackage) on a fresh hash instance: Go
appends the digest of the (empty) written data to the argument, so it
equals cds.CodePackage ++ H [].  MetaDataHash is H(Name ++ Version)
(two writes, then Sum(nil)). -/
def cdsDataOf (H : Bytes → Bytes) (cds : ChaincodeDeploymentSpec) : CDSData :=
  { CodeHash := hashSum H [] cds.CodePackage
    MetaDataHash :=
      hashSum H (cds.chaincodeSpec.chaincodeId.Name ++ cds.chaincodeSpec.chaincodeId.Version) [] }

/-- CDSPackage.getCDSData: panics on a nil spec, otherwise computes the
digest record and its serialized form. -/
def CDSPackage.getCDSData (H : Bytes → Bytes) (cds : Option ChaincodeDeploymentSpec) :
    GoResult (Bytes × CDSData) :=
  match cds with
  | none => .panicked
  | some cds =>
    let d := cdsDataOf H cds
    .ok (marshalCDSData d, d)

/-! ### SignedCDSPackage digest computation (sigcdspackage.go) -/

/-- The signature-hash input of SignedCDSPackage.getCDSData: the
instantiation policy bytes followed by each endorsement's Endorser
bytes in the given order. -/
def sigHashInput (pol : Bytes) (ends : List Endorsement) : Bytes :=
  pol ++ (ends.map Endorsement.Endorser).flatten

/-- SignedCDSPackage.getCDSData: panics on a nil signed spec; decodes
the embedded deployment spec (error if malformed); computes CodeHash
and MetaDataHash exactly as the unsigned profile; then errors if the
instantiation policy is nil (an empty non-nil policy passes the Go
`scds.InstantiationPolicy == nil` check); finally hashes the policy and
the endorser identities in order. -/
def SignedCDSPackage.getCDSData (H : Bytes → Bytes)
    (scds : Option SignedChaincodeDeploymentSpec) : GoResult (Bytes × SignedCDSData) :=
  match scds with
  | none => .panicked
  | some scds =>
    match unmarshalCDS scds.ChaincodeDeploymentSpec with
    | none => .err .unmarshalError
    | some cds =>
      let codeHash := hashSum H [] cds.CodePackage
      let metaDataHash :=
        hashSum H (cds.chaincodeSpec.chaincodeId.Name ++ cds.chaincodeSpec.chaincodeId.Version) []
      match scds.InstantiationPolicy with
      | none => .err .instantiationPolicyNil
      | some pol =>
        let d : SignedCDSData :=
          { CodeHash := codeHash
            MetaDataHash := metaDataHash
            SignatureHash := hashSum H (sigHashInput pol scds.OwnerEndorsements) [] }
        .ok (marshalSignedCDSData d, d)

/-! ### Package store (external filesystem, §6 of the spec) -/

/-- The package store: a map from paths to file contents. -/
abbrev FS := Bytes → Option Bytes

/-- Write a file (ioutil.WriteFile). -/
def fsWrite (fs : FS) (path contents : Bytes) : FS :=
  fun p => if p = path then some contents else fs p

/-- The install path of a chaincode: chaincodeInstallPath/name.version
(47 is the byte of the path separator, 46 of the dot). -/
def ccPath (installPath name version : Bytes) : Bytes :=
  installPath ++ [47] ++ name ++ [46] ++ version

/-- GetChaincodePackage (external store): read the raw package bytes at
the path derived from name and version, NotFound if absent. -/
def GetChaincodePackage (installPath : Bytes) (fs : FS) (ccname ccversion : Bytes) :
    GoResult Bytes :=
  match fs (ccPath installPath ccname ccversion) with
  | none => .err .notFound
  | some b => .ok b

/-! ### CDSPackage operations (cdspackage.go) -/

/-- The fully cleared (uninitialized) unsigned package. -/
def CDSPackage.cleared : CDSPackage := ⟨none, none, none⟩

/-- CDSPackage.ValidateCC: guards on nil depSpec and nil data, identity
pre-check, decode of the supplied digest record, byte-exact comparison. -/
def CDSPackage.ValidateCC (ccpack : CDSPackage) (ccdata : ChaincodeData) :
    GoResult ChaincodeDeploymentSpec :=
  match ccpack.depSpec with
  | none => .err .uninitializedPackage
  | some depSpec =>
    match ccpack.data with
    | none => .err .nilData
    | some data =>
      if ccdata.Name ≠ depSpec.chaincodeSpec.chaincodeId.Name ∨
          ccdata.Version ≠ depSpec.chaincodeSpec.chaincodeId.Version then
        .err .invalidChaincodeData
      else
        match unmarshalCDSData ccdata.Data with
        | none => .err .unmarshalError
        | some otherdata =>
          if data.Equals (some otherdata) then .ok depSpec else .err .dataMismatch

/-- CDSPackage.InitFromBuffer: clear all fields, decode the buffer as a
deployment spec, compute the digest record, populate the fields and
return the ChaincodeData; on any failure the package stays cleared. -/
def CDSPackage.InitFromBuffer (H : Bytes → Bytes) (_ccpack : CDSPackage) (buf : Bytes) :
    GoResult ChaincodeData × CDSPackage :=
  match unmarshalCDS buf with
  | none => (.err .unmarshalError, CDSPackage.cleared)
  | some depSpec =>
    match CDSPackage.getCDSData H (some depSpec) with
    | .panicked => (.panicked, CDSPackage.cleared)
    | .err e => (.err e, CDSPackage.cleared)
    | .ok (databytes, data) =>
      (.ok ⟨depSpec.chaincodeSpec.chaincodeId.Name, depSpec.chaincodeSpec.chaincodeId.Version,
          databytes⟩,
        ⟨some buf, some depSpec, some data⟩)

/-- CDSPackage.InitFromFS: clear all fields, fetch the raw bytes from
the store, decode and recompute the digest, populate the fields. -/
def CDSPackage.InitFromFS (H : Bytes → Bytes) (installPath : Bytes) (fs : FS)
    (_ccpack : CDSPackage) (ccname ccversion : Bytes) :
    GoResult (Bytes × ChaincodeDeploymentSpec) × CDSPackage :=
  match GetChaincodePackage installPath fs ccname ccversion with
  | .err e => (.err e, CDSPackage.cleared)
  | .panicked => (.panicked, CDSPackage.cleared)
  | .ok buf =>
    match unmarshalCDS buf with
    | none => (.err .unmarshalError, CDSPackage.cleared)
    | some depSpec =>
      match CDSPackage.getCDSData H (some depSpec) with
      | .panicked => (.panicked, CDSPackage.cleared)
      | .err e => (.err e, CDSPackage.cleared)
      | .ok (_, data) => (.ok (buf, depSpec), ⟨some buf, some depSpec, some data⟩)

/-- CDSPackage.PutChaincodeToFS: guards on the uninitialized fields,
then fails if a package already exists at the derived path (write-once)
and otherwise writes the raw bytes. -/
def CDSPackage.PutChaincodeToFS (installPath : Bytes) (ccpack : CDSPackage) (fs : FS) :
    GoResult Unit × FS :=
  match ccpack.buf with
  | none => (.err .uninitializedPackage, fs)
  | some buf =>
    match ccpack.depSpec with
    | none => (.err .nilDepSpec, fs)
    | some depSpec =>
      match ccpack.data with
      | none => (.err .nilData, fs)
      | some _ =>
        let path := ccPath installPath depSpec.chaincodeSpec.chaincodeId.Name
          depSpec.chaincodeSpec.chaincodeId.Version
        match fs path with
        | some _ => (.err .chaincodeExists, fs)
        | none => (.ok (), fsWrite fs path buf)

/-! ### Envelope and signed-package extraction (external, §6 of the spec) -/

/-- protos/common Envelope, modelled at its interface boundary: a
container whose content is decoded by the external extraction below. -/
structure Envelope where
  content : Bytes
deriving DecidableEq, Repr

/-- protos/common ChannelHeader; only the Type field is read here
(headerType, since Type is reserved in Lean). -/
structure ChannelHeader where
  headerType : Nat
deriving DecidableEq, Repr

/-- HeaderType_CHAINCODE_PACKAGE. -/
def HeaderType.chaincodePackage : Nat := 6

/-- Codec for Envelope (model of proto.Unmarshal of an Envelope). -/
def unmarshalEnvelope (b : Bytes) : Option Envelope :=
  match decBytes b with
  | some (c, []) => some ⟨c⟩
  | _ => none

/-- ccpackage.ExtractSignedCCDepSpec (external): extract the channel
header and the SignedChaincodeDeploymentSpec from an envelope, failing
on an envelope that is not a well-formed signed-package envelope. -/
def ExtractSignedCCDepSpec (env : Envelope) :
    GoResult (ChannelHeader × SignedChaincodeDeploymentSpec) :=
  match env.content with
  | [] => .err .extractionError
  | t :: rest =>
    match unmarshalSignedCDS rest with
    | none => .err .extractionError
    | some sDepSpec => .ok (⟨t⟩, sDepSpec)

/-- Build the raw bytes of a well-formed signed-package envelope with
the given channel-header type; inverse of decode plus extraction. -/
def mkEnvelopeBytes (t : Nat) (scds : SignedChaincodeDeploymentSpec) : Bytes :=
  encBytes (t :: marshalSignedCDS scds)


/-! ### SignedCDSPackage operations (sigcdspackage.go) -/

/-- SignedCDSPackage: buf, depSpec, sDepSpec, env, data; each nil-able. -/
structure SignedCDSPackage where
  buf : Option Bytes
  depSpec : Option ChaincodeDeploymentSpec
  sDepSpec : Option SignedChaincodeDeploymentSpec
  env : Option Envelope
  data : Option SignedCDSData
deriving DecidableEq, Repr

/-- The fully cleared (uninitialized) signed package. -/
def SignedCDSPackage.cleared : SignedCDSPackage := ⟨none, none, none, none, none⟩

/-- SignedCDSPackage.ValidateCC: guards on nil sDepSpec, nil embedded
deployment-spec bytes and nil depSpec; identity pre-check; decode of
the supplied digest record; then `ccpack.data.Equals(otherdata)` which
dereferences the nil-able data field without a guard: if data is nil at
that point the Go code panics (nil-pointer dereference inside Equals).
The nil-able raw bytes field sDepSpec.ChaincodeDeploymentSpec is
modelled as Bytes, identifying nil with empty for this one check. -/
def SignedCDSPackage.ValidateCC (ccpack : SignedCDSPackage) (ccdata : ChaincodeData) :
    GoResult ChaincodeDeploymentSpec :=
  match ccpack.sDepSpec with
  | none => .err .uninitializedPackage
  | some sDepSpec =>
    if sDepSpec.ChaincodeDeploymentSpec = [] then .err .nilSignedDepSpec
    else
      match ccpack.depSpec with
      | none => .err .nilDepSpec
      | some depSpec =>
        if ccdata.Name ≠ depSpec.chaincodeSpec.chaincodeId.Name ∨
            ccdata.Version ≠ depSpec.chaincodeSpec.chaincodeId.Version then
          .err .invalidChaincodeData
        else
          match unmarshalSignedCDSData ccdata.Data with
          | none => .err .unmarshalError
          | some otherdata =>
            match ccpack.data with
            | none => .panicked
            | some data =>
              if data.Equals (some otherdata) then .ok depSpec else .err .dataMismatch

/-- SignedCDSPackage.InitFromBuffer: clear all five fields, decode the
envelope, extract the signed spec, check the envelope type, decode the
embedded deployment spec, compute the digest record, populate all
fields and return the ChaincodeData; on any failure the package stays
cleared. -/
def SignedCDSPackage.InitFromBuffer (H : Bytes → Bytes) (_ccpack : SignedCDSPackage)
    (buf : Bytes) : GoResult ChaincodeData × SignedCDSPackage :=
  match unmarshalEnvelope buf with
  | none => (.err .failedUnmarshalEnvelope, SignedCDSPackage.cleared)
  | some env =>
    match ExtractSignedCCDepSpec env with
    | .err e => (.err e, SignedCDSPackage.cleared)
    | .panicked => (.panicked, SignedCDSPackage.cleared)
    | .ok (cHdr, sDepSpec) =>
      if cHdr.headerType ≠ HeaderType.chaincodePackage then
        (.err .invalidEnvelopeType, SignedCDSPackage.cleared)
      else
        match unmarshalCDS sDepSpec.ChaincodeDeploymentSpec with
        | none => (.err .errorGettingDepSpec, SignedCDSPackage.cleared)
        | some depSpec =>
          match SignedCDSPackage.getCDSData H (some sDepSpec) with
          | .panicked => (.panicked, SignedCDSPackage.cleared)
          | .err e => (.err e, SignedCDSPackage.cleared)
          | .ok (databytes, data) =>
            (.ok ⟨depSpec.chaincodeSpec.chaincodeId.Name,
                depSpec.chaincodeSpec.chaincodeId.Version, databytes⟩,
              ⟨some buf, some depSpec, some sDepSpec, some env, some data⟩)

/-- SignedCDSPackage.InitFromFS: the source clears buf, sDepSpec,
depSpec and env but NOT data before fetching from the store, so a fetch
failure leaves a stale digest record from a previous load; on a
successful fetch it delegates to InitFromBuffer (which does clear data)
and returns the package's buf and depSpec fields. -/
def SignedCDSPackage.InitFromFS (H : Bytes → Bytes) (installPath : Bytes) (fs : FS)
    (ccpack : SignedCDSPackage) (ccname ccversion : Bytes) :
    GoResult (Option Bytes × Option ChaincodeDeploymentSpec) × SignedCDSPackage :=
  let partiallyCleared : SignedCDSPackage := ⟨none, none, none, none, ccpack.data⟩
  match GetChaincodePackage installPath fs ccname ccversion with
  | .err e => (.err e, partiallyCleared)
  | .panicked => (.panicked, partiallyCleared)
  | .ok buf =>
    match SignedCDSPackage.InitFromBuffer H partiallyCleared buf with
    | (.err e, st) => (.err e, st)
    | (.panicked, st) => (.panicked, st)
    | (.ok _, st) => (.ok (st.buf, st.depSpec), st)

/-- SignedCDSPackage.PutChaincodeToFS: guards on the uninitialized
fields, then fails if a package already exists at the derived path
(write-once) and otherwise writes the raw bytes. -/
def SignedCDSPackage.PutChaincodeToFS (installPath : Bytes) (ccpack : SignedCDSPackage)
    (fs : FS) : GoResult Unit × FS :=
  match ccpack.buf with
  | none => (.err .uninitializedPackage, fs)
  | some buf =>
    if ccpack.sDepSpec = none ∨ ccpack.depSpec = none then (.err .nilDepSpec, fs)
    else
      match ccpack.env with
      | none => (.err .nilEnv, fs)
      | some _ =>
        match ccpack.data with
        | none => (.err .nilData, fs)
        | some _ =>
          match ccpack.depSpec with
          | none => (.err .nilDepSpec, fs)
          | some depSpec =>
            let path := ccPath installPath depSpec.chaincodeSpec.chaincodeId.Name
              depSpec.chaincodeSpec.chaincodeId.Version
            match fs path with
            | some _ => (.err .chaincodeExists, fs)
            | none => (.ok (), fsWrite fs path buf)

/-! ### Concrete fixtures (the spec's concrete scenario: name mycc,
version 1.0, codePackage abc, in byte form) -/

/-- The deployment spec of the concrete scenario. -/
def specEx : ChaincodeDeploymentSpec :=
  ⟨⟨⟨[109, 121, 99, 99], [49, 46, 48]⟩⟩, [97, 98, 99]⟩

/-- Its serialized form, a buffer that decodes as a valid spec. -/
def bufEx : Bytes := marshalCDS specEx

/-- A concrete executable hash provider used for witnesses: the digest
of a byte string is its length followed by its bytes (injective). -/
def Hex : Bytes → Bytes := fun b => b.length :: b

/-- A concrete signed deployment spec over the scenario spec, with an
instantiation policy byte and two endorsers. -/
def scdsEx : SignedChaincodeDeploymentSpec :=
  ⟨bufEx, some [112], [⟨[101, 49]⟩, ⟨[101, 50]⟩]⟩

/-- A buffer that decodes as a valid signed-package envelope. -/
def sigBufEx : Bytes := mkEnvelopeBytes 6 scdsEx

/-- The digest record the unsigned profile computes on the scenario. -/
def dataEx : CDSData := cdsDataOf Hex specEx

/-- The ChaincodeData InitFromBuffer returns on the scenario (unsigned). -/
def cdEx : ChaincodeData :=
  ⟨[109, 121, 99, 99], [49, 46, 48], marshalCDSData dataEx⟩

/-- The unsigned package state after a successful init on the scenario. -/
def stEx : CDSPackage := ⟨some bufEx, some specEx, some dataEx⟩

/-- The digest record the signed profile computes on the scenario. -/
def sigDataEx : SignedCDSData :=
  { CodeHash := hashSum Hex [] specEx.CodePackage
    MetaDataHash :=
      hashSum Hex
        (specEx.chaincodeSpec.chaincodeId.Name ++ specEx.chaincodeSpec.chaincodeId.Version) []
    SignatureHash := hashSum Hex (sigHashInput [112] scdsEx.OwnerEndorsements) [] }

/-- The ChaincodeData InitFromBuffer returns on the scenario (signed). -/
def sigCdEx : ChaincodeData :=
  ⟨[109, 121, 99, 99], [49, 46, 48], marshalSignedCDSData sigDataEx⟩

/-- The signed package state after a successful init on the scenario. -/
def sigStEx : SignedCDSPackage :=
  ⟨some sigBufEx, some specEx, some scdsEx, some ⟨6 :: marshalSignedCDS scdsEx⟩, some sigDataEx⟩

/-- The empty package store. -/
def fsEmpty : FS := fun _ => none

/-- A signed spec with an empty but present (non-nil) instantiation
policy: a Go byte slice of length zero that is not nil. -/
def scdsEmptyPol : SignedChaincodeDeploymentSpec := ⟨bufEx, some [], [⟨[101, 49]⟩]⟩

/-- The digest record the signed profile computes on scdsEmptyPol. -/
def dEmptyPol : SignedCDSData :=
  { CodeHash := hashSum Hex [] specEx.CodePackage
    MetaDataHash :=
      hashSum Hex
        (specEx.chaincodeSpec.chaincodeId.Name ++ specEx.chaincodeSpec.chaincodeId.Version) []
    SignatureHash := hashSum Hex (sigHashInput [] scdsEmptyPol.OwnerEndorsements) [] }

/-- A signed spec with an absent (nil) instantiation policy. -/
def scdsNoPol : SignedChaincodeDeploymentSpec := ⟨bufEx, none, [⟨[101, 49]⟩]⟩

/-- scdsEx with its two endorsements swapped. -/
def scdsExSwap : SignedChaincodeDeploymentSpec :=
  ⟨bufEx, some [112], [⟨[101, 50]⟩, ⟨[101, 49]⟩]⟩

/-- The digest record the signed profile computes on scdsExSwap. -/
def sigDataExSwap : SignedCDSData :=
  { CodeHash := hashSum Hex [] specEx.CodePackage
    MetaDataHash :=
      hashSum Hex
        (specEx.chaincodeSpec.chaincodeId.Name ++ specEx.chaincodeSpec.chaincodeId.Version) []
    SignatureHash := hashSum Hex (sigHashInput [112] scdsExSwap.OwnerEndorsements) [] }

/-- A signed spec whose two distinct endorsers concatenate to the same
bytes in either order (a prefix collision: a then aa, versus aa then a). -/
def scdsPrefixA : SignedChaincodeDeploymentSpec :=
  ⟨bufEx, some [112], [⟨[97]⟩, ⟨[97, 97]⟩]⟩

/-- scdsPrefixA with its two endorsements swapped. -/
def scdsPrefixB : SignedChaincodeDeploymentSpec :=
  ⟨bufEx, some [112], [⟨[97, 97]⟩, ⟨[97]⟩]⟩

/-! ### Reachable package states (all sequences of public operations
starting from a fresh package, with arbitrary inputs, hash provider and
store contents; ValidateCC and PutChaincodeToFS do not mutate the
package) -/

/-- States of an unsigned package reachable by public operations. -/
inductive CDSReach : CDSPackage → Prop where
  | fresh : CDSReach CDSPackage.cleared
  | initFromBuffer (H : Bytes → Bytes) (p : CDSPackage) (buf : Bytes) :
      CDSReach p → CDSReach (CDSPackage.InitFromBuffer H p buf).2
  | initFromFS (H : Bytes → Bytes) (installPath : Bytes) (fs : FS) (p : CDSPackage)
      (ccname ccversion : Bytes) :
      CDSReach p → CDSReach (CDSPackage.InitFromFS H installPath fs p ccname ccversion).2

/-- States of a signed package reachable by public operations. -/
inductive SignedCDSReach : SignedCDSPackage → Prop where
  | fresh : SignedCDSReach SignedCDSPackage.cleared
  | initFromBuffer (H : Bytes → Bytes) (p : SignedCDSPackage) (buf : Bytes) :
      SignedCDSReach p → SignedCDSReach (SignedCDSPackage.InitFromBuffer H p buf).2
  | initFromFS (H : Bytes → Bytes) (installPath : Bytes) (fs : FS) (p : SignedCDSPackage)
      (ccname ccversion : Bytes) :
      SignedCDSReach p →
        SignedCDSReach (SignedCDSPackage.InitFromFS H installPath fs p ccname ccversion).2

/-! ### Codec round-trip lemmas -/

theorem decBytes_encBytes (b r : Bytes) : decBytes (encBytes b ++ r) = some (b, r) := by
  simp [encBytes, decBytes]

theorem decOptBytes_encOptBytes (o : Option Bytes) (r : Bytes) :
    decOptBytes (encOptBytes o ++ r) = some (o, r) := by
  cases o with
  | none => simp [encOptBytes, decOptBytes]
  | some b => simp [encOptBytes, decOptBytes, decBytes_encBytes]

theorem decBytesN_encBytes (l : List Bytes) (r : Bytes) :
    decBytesN l.length ((l.map encBytes).flatten ++ r) = some (l, r) := by
  induction l generalizing r with
  | nil => simp [decBytesN]
  | cons b t ih =>
    simp only [List.map_cons, List.flatten_cons, List.length_cons, List.append_assoc]
    simp [decBytesN, decBytes_encBytes, ih]

theorem decBytesList_encBytesList (l : List Bytes) (r : Bytes) :
    decBytesList (encBytesList l ++ r) = some (l, r) := by
  simp [encBytesList, decBytesList, decBytesN_encBytes]

theorem unmarshalCDS_marshalCDS (cds : ChaincodeDeploymentSpec) :
    unmarshalCDS (marshalCDS cds) = some cds := by
  simp only [marshalCDS, unmarshalCDS, List.append_assoc, decBytes_encBytes]
  rw [show encBytes cds.CodePackage = encBytes cds.CodePackage ++ [] from (List.append_nil _).symm,
    decBytes_encBytes]
  simp

theorem unmarshalSignedCDS_marshalSignedCDS (scds : SignedChaincodeDeploymentSpec) :
    unmarshalSignedCDS (marshalSignedCDS scds) = some scds := by
  simp only [marshalSignedCDS, unmarshalSignedCDS, List.append_assoc, decBytes_encBytes,
    decOptBytes_encOptBytes]
  rw [show encBytesList (scds.OwnerEndorsements.map Endorsement.Endorser)
      = encBytesList (scds.OwnerEndorsements.map Endorsement.Endorser) ++ []
      from (List.append_nil _).symm, decBytesList_encBytesList]
  simp [List.map_map, Function.comp_def]

theorem unmarshalCDSData_marshalCDSData (d : CDSData) :
    unmarshalCDSData (marshalCDSData d) = some d := by
  simp only [marshalCDSData, unmarshalCDSData, List.append_assoc, decBytes_encBytes]
  rw [show encBytes d.MetaDataHash = encBytes d.MetaDataHash ++ [] from (List.append_nil _).symm,
    decBytes_encBytes]
  simp

theorem unmarshalSignedCDSData_marshalSignedCDSData (d : SignedCDSData) :
    unmarshalSignedCDSData (marshalSignedCDSData d) = some d := by
  simp only [marshalSignedCDSData, unmarshalSignedCDSData, List.append_assoc, decBytes_encBytes]
  rw [show encBytes d.SignatureHash = encBytes d.SignatureHash ++ [] from (List.append_nil _).symm,
    decBytes_encBytes]
  simp

theorem unmarshalEnvelope_mkEnvelopeBytes (t : Nat) (scds : SignedChaincodeDeploymentSpec) :
    unmarshalEnvelope (mkEnvelopeBytes t scds) = some ⟨t :: marshalSignedCDS scds⟩ := by
  have h := decBytes_encBytes (t :: marshalSignedCDS scds) []
  rw [List.append_nil] at h
  simp [unmarshalEnvelope, mkEnvelopeBytes, h]

theorem extract_mkEnvelopeBytes (t : Nat) (scds : SignedChaincodeDeploymentSpec) :
    ExtractSignedCCDepSpec ⟨t :: marshalSignedCDS scds⟩ = .ok (⟨t⟩, scds) := by
  simp [ExtractSignedCCDepSpec, unmarshalSignedCDS_marshalSignedCDS]

/-! ### Helper lemmas -/

theorem hashSum_nil (H : Bytes → Bytes) (w : Bytes) : hashSum H w [] = H w := rfl

theorem Hex_injective : Function.Injective Hex := by
  intro a b h
  simpa [Hex] using congrArg List.tail h

theorem unmarshalCDS_nil : unmarshalCDS [] = none := by
  simp [unmarshalCDS, decBytes]

theorem signed_getCDSData_ok (H : Bytes → Bytes) (scds : SignedChaincodeDeploymentSpec)
    (b : Bytes) (d : SignedCDSData)
    (h : SignedCDSPackage.getCDSData H (some scds) = .ok (b, d)) :
    ∃ cds pol, unmarshalCDS scds.ChaincodeDeploymentSpec = some cds ∧
      scds.InstantiationPolicy = some pol ∧
      d = ⟨hashSum H [] cds.CodePackage,
        hashSum H (cds.chaincodeSpec.chaincodeId.Name ++ cds.chaincodeSpec.chaincodeId.Version) [],
        hashSum H (sigHashInput pol scds.OwnerEndorsements) []⟩ ∧
      b = marshalSignedCDSData d := by
  simp only [SignedCDSPackage.getCDSData] at h
  cases hdec : unmarshalCDS scds.ChaincodeDeploymentSpec with
  | none => rw [hdec] at h; simp at h
  | some cds =>
    rw [hdec] at h
    cases hpol : scds.InstantiationPolicy with
    | none => rw [hpol] at h; simp at h
    | some pol =>
      rw [hpol] at h
      simp only [GoResult.ok.injEq, Prod.mk.injEq] at h
      exact ⟨cds, pol, rfl, rfl, h.2.symm, h.2 ▸ h.1.symm⟩

/-- Success of the signed digest computation, constructive direction. -/
theorem signed_getCDSData_eq (H : Bytes → Bytes) (scds : SignedChaincodeDeploymentSpec)
    (cds : ChaincodeDeploymentSpec) (pol : Bytes)
    (hdec : unmarshalCDS scds.ChaincodeDeploymentSpec = some cds)
    (hpol : scds.InstantiationPolicy = some pol) :
    SignedCDSPackage.getCDSData H (some scds) =
      .ok (marshalSignedCDSData
        ⟨hashSum H [] cds.CodePackage,
          hashSum H
            (cds.chaincodeSpec.chaincodeId.Name ++ cds.chaincodeSpec.chaincodeId.Version) [],
          hashSum H (sigHashInput pol scds.OwnerEndorsements) []⟩,
        ⟨hashSum H [] cds.CodePackage,
          hashSum H
            (cds.chaincodeSpec.chaincodeId.Name ++ cds.chaincodeSpec.chaincodeId.Version) [],
          hashSum H (sigHashInput pol scds.OwnerEndorsements) []⟩) := by
  simp only [SignedCDSPackage.getCDSData, hdec, hpol]

/-! ### Claim theorems -/

/-- Claim C2 (code bug): the claim says both digest profiles set codeHash to
H(codePackage).  The code computes hash.Sum(codePackage) on a hash instance
with nothing written; Go hash.Sum appends the digest of the written (empty)
data to its argument, so the stored codeHash is codePackage ++ H(empty), not
H(codePackage).  At the concrete scenario codePackage = abc the two differ. -/
theorem C2_codeHash_bug :
    (∀ (H : Bytes → Bytes) (cds : ChaincodeDeploymentSpec),
      (cdsDataOf H cds).CodeHash = cds.CodePackage ++ H []) ∧
    SignedCDSPackage.getCDSData Hex (some scdsEx) =
      .ok (marshalSignedCDSData sigDataEx, sigDataEx) ∧
    dataEx.CodeHash = [97, 98, 99] ++ Hex [] ∧
    sigDataEx.CodeHash = [97, 98, 99] ++ Hex [] ∧
    dataEx.CodeHash ≠ Hex [97, 98, 99] ∧
    sigDataEx.CodeHash ≠ Hex [97, 98, 99] :=
  ⟨fun _ _ => rfl, by decide, by decide, by decide, by decide, by decide⟩

/-- Claim C6: both digest profiles set metadataHash to H(name ++ version),
one hash instance, name then version, no delimiter. -/
theorem C6_metadataHash :
    (∀ (H : Bytes → Bytes) (cds : ChaincodeDeploymentSpec),
      (cdsDataOf H cds).MetaDataHash =
        H (cds.chaincodeSpec.chaincodeId.Name ++ cds.chaincodeSpec.chaincodeId.Version)) ∧
    (∀ (H : Bytes → Bytes) (scds : SignedChaincodeDeploymentSpec) (b : Bytes)
      (d : SignedCDSData),
      SignedCDSPackage.getCDSData H (some scds) = .ok (b, d) →
      ∃ cds, unmarshalCDS scds.ChaincodeDeploymentSpec = some cds ∧
        d.MetaDataHash =
          H (cds.chaincodeSpec.chaincodeId.Name ++ cds.chaincodeSpec.chaincodeId.Version)) := by
  constructor
  · intro H cds
    simp [cdsDataOf, hashSum]
  · intro H scds b d h
    obtain ⟨cds, pol, hdec, hpol, hd, hb⟩ := signed_getCDSData_ok H scds b d h
    exact ⟨cds, hdec, by rw [hd]; simp [hashSum]⟩

/-- Witness for C6: the signed profile on the concrete scenario. -/
theorem C6_metadataHash_witness :
    SignedCDSPackage.getCDSData Hex (some scdsEx) =
      .ok (marshalSignedCDSData sigDataEx, sigDataEx) ∧
    (∃ cds, unmarshalCDS scdsEx.ChaincodeDeploymentSpec = some cds ∧
      sigDataEx.MetaDataHash =
        Hex (cds.chaincodeSpec.chaincodeId.Name ++ cds.chaincodeSpec.chaincodeId.Version)) :=
  ⟨by decide, C6_metadataHash.2 Hex scdsEx (marshalSignedCDSData sigDataEx) sigDataEx (by decide)⟩

/-- Counterexample to claim C5: a signed deployment spec whose instantiation
policy is empty but present (a non-nil zero-length byte slice) passes the Go
nil check, so the signed digest computation succeeds instead of failing with
PolicyMissing. -/
theorem C5_counterexample :
    scdsEmptyPol.InstantiationPolicy = some [] ∧
    SignedCDSPackage.getCDSData Hex (some scdsEmptyPol) =
      .ok (marshalSignedCDSData dEmptyPol, dEmptyPol) := by
  decide

/-- Claim C5 (amended): for every signed deployment spec whose embedded
deployment-spec bytes decode successfully and whose instantiation policy is
absent (nil), the signed digest computation fails with PolicyMissing,
regardless of the values of all other fields; an empty-but-present policy is
not rejected, and a spec whose embedded bytes do not decode fails with the
decode error before the policy check. -/
theorem C5_policyNil :
    ∀ (H : Bytes → Bytes) (scds : SignedChaincodeDeploymentSpec)
      (cds : ChaincodeDeploymentSpec),
      unmarshalCDS scds.ChaincodeDeploymentSpec = some cds →
      scds.InstantiationPolicy = none →
      SignedCDSPackage.getCDSData H (some scds) = .err .instantiationPolicyNil := by
  intro H scds cds hdec hpol
  simp only [SignedCDSPackage.getCDSData, hdec, hpol]

/-- Witness for C5 (amended): a concrete nil-policy signed spec fails with
PolicyMissing. -/
theorem C5_policyNil_witness :
    unmarshalCDS scdsNoPol.ChaincodeDeploymentSpec = some specEx ∧
    scdsNoPol.InstantiationPolicy = none ∧
    SignedCDSPackage.getCDSData Hex (some scdsNoPol) = .err .instantiationPolicyNil :=
  ⟨by decide, rfl, C5_policyNil Hex scdsNoPol specEx (by decide) rfl⟩

/-- Counterexample to claim C7: permuting two otherwise-identical but distinct
endorsements (endorsers a and aa) does NOT change the bytes fed to the hash
(a prefix collision in the delimiter-free concatenation), so the signatureHash
and the whole digest record are unchanged by the permutation. -/
theorem C7_counterexample :
    scdsPrefixA.OwnerEndorsements ≠ scdsPrefixB.OwnerEndorsements ∧
    scdsPrefixA.OwnerEndorsements.Perm scdsPrefixB.OwnerEndorsements ∧
    sigHashInput [112] scdsPrefixA.OwnerEndorsements =
      sigHashInput [112] scdsPrefixB.OwnerEndorsements ∧
    SignedCDSPackage.getCDSData Hex (some scdsPrefixA) =
      SignedCDSPackage.getCDSData Hex (some scdsPrefixB) := by
  refine ⟨by decide, ?_, by decide, by decide⟩
  exact List.Perm.swap (Endorsement.mk [97, 97]) (Endorsement.mk [97]) []

/-- Claim C7 (amended): for every signed deployment spec with a present
instantiation policy, signatureHash is the hash of the policy bytes followed
by each endorsement's endorser bytes in the given order; permuting the
endorsements changes the signatureHash (for an injective digest function)
exactly when it changes that concatenation, which a swap of distinct
endorsers can do (concrete instance below) but need not in general. -/
theorem C7_signatureHash :
    (∀ (H : Bytes → Bytes) (scds : SignedChaincodeDeploymentSpec) (pol b : Bytes)
      (d : SignedCDSData),
      scds.InstantiationPolicy = some pol →
      SignedCDSPackage.getCDSData H (some scds) = .ok (b, d) →
      d.SignatureHash = H (sigHashInput pol scds.OwnerEndorsements)) ∧
    (∀ (H : Bytes → Bytes), Function.Injective H →
      ∀ (scds scds2 : SignedChaincodeDeploymentSpec) (pol b b2 : Bytes)
        (d d2 : SignedCDSData),
        scds.InstantiationPolicy = some pol → scds2.InstantiationPolicy = some pol →
        SignedCDSPackage.getCDSData H (some scds) = .ok (b, d) →
        SignedCDSPackage.getCDSData H (some scds2) = .ok (b2, d2) →
        sigHashInput pol scds.OwnerEndorsements ≠ sigHashInput pol scds2.OwnerEndorsements →
        d.SignatureHash ≠ d2.SignatureHash) ∧
    sigHashInput [112] scdsEx.OwnerEndorsements ≠
      sigHashInput [112] scdsExSwap.OwnerEndorsements := by
  have main : ∀ (H : Bytes → Bytes) (scds : SignedChaincodeDeploymentSpec) (pol b : Bytes)
      (d : SignedCDSData),
      scds.InstantiationPolicy = some pol →
      SignedCDSPackage.getCDSData H (some scds) = .ok (b, d) →
      d.SignatureHash = H (sigHashInput pol scds.OwnerEndorsements) := by
    intro H scds pol b d hpol h
    obtain ⟨cds, pol2, hdec, hpol2, hd, hb⟩ := signed_getCDSData_ok H scds b d h
    have : pol2 = pol := by rw [hpol] at hpol2; exact (Option.some.injEq _ _ ▸ hpol2).symm ▸ rfl
    subst this
    rw [hd]
    simp [hashSum]
  refine ⟨main, ?_, by decide⟩
  intro H hinj scds scds2 pol b b2 d d2 hpol hpol2 h h2 hne
  rw [main H scds pol b d hpol h, main H scds2 pol b2 d2 hpol2 h2]
  intro heq
  exact hne (hinj heq)

/-- Witness for C7 (amended): on the concrete scenario, swapping the two
distinct endorsers changes the concatenated hash input and, with the
injective concrete digest, the signatureHash. -/
theorem C7_signatureHash_witness :
    sigDataEx.SignatureHash ≠ sigDataExSwap.SignatureHash :=
  C7_signatureHash.2.1 Hex Hex_injective scdsEx scdsExSwap [112]
    (marshalSignedCDSData sigDataEx) (marshalSignedCDSData sigDataExSwap)
    sigDataEx sigDataExSwap rfl rfl (by decide) (by decide) (by decide)

theorem cdsData_equals_some_iff (d o : CDSData) : (d.Equals (some o) = true) ↔ d = o := by
  cases d
  cases o
  simp [CDSData.Equals]

theorem signedCDSData_equals_some_iff (d o : SignedCDSData) :
    (d.Equals (some o) = true) ↔ d = o := by
  cases d
  cases o
  simp [SignedCDSData.Equals]

theorem unsigned_validateCC_initialized (buf : Bytes) (depSpec : ChaincodeDeploymentSpec)
    (data otherdata : CDSData) (cd : ChaincodeData)
    (hName : cd.Name = depSpec.chaincodeSpec.chaincodeId.Name)
    (hVer : cd.Version = depSpec.chaincodeSpec.chaincodeId.Version)
    (hdec : unmarshalCDSData cd.Data = some otherdata) :
    CDSPackage.ValidateCC ⟨some buf, some depSpec, some data⟩ cd =
      if data = otherdata then .ok depSpec else .err .dataMismatch := by
  simp only [CDSPackage.ValidateCC, hdec]
  rw [if_neg (by simp [hName, hVer])]
  by_cases h : data = otherdata
  · rw [if_pos ((cdsData_equals_some_iff data otherdata).mpr h), if_pos h]
  · rw [if_neg (fun hc => h ((cdsData_equals_some_iff data otherdata).mp hc)), if_neg h]

theorem signed_validateCC_initialized (buf : Bytes)
    (depSpec : ChaincodeDeploymentSpec) (scds : SignedChaincodeDeploymentSpec)
    (env : Envelope) (data otherdata : SignedCDSData) (cd : ChaincodeData)
    (hne : scds.ChaincodeDeploymentSpec ≠ [])
    (hName : cd.Name = depSpec.chaincodeSpec.chaincodeId.Name)
    (hVer : cd.Version = depSpec.chaincodeSpec.chaincodeId.Version)
    (hdec : unmarshalSignedCDSData cd.Data = some otherdata) :
    SignedCDSPackage.ValidateCC ⟨some buf, some depSpec, some scds, some env, some data⟩ cd =
      if data = otherdata then .ok depSpec else .err .dataMismatch := by
  simp only [SignedCDSPackage.ValidateCC, hdec]
  rw [if_neg hne, if_neg (by simp [hName, hVer])]
  by_cases h : data = otherdata
  · rw [if_pos ((signedCDSData_equals_some_iff data otherdata).mpr h), if_pos h]
  · rw [if_neg (fun hc => h ((signedCDSData_equals_some_iff data otherdata).mp hc)), if_neg h]

/-- Claim C3: for initialized packages of either variant with matching
identity, the digest comparison is exact byte-wise equality of every field of
the two digest records: Equals holds exactly on field-wise equal records, a
nil/absent record is never equal, and any difference in any field makes
ValidateCC fail with the data-mismatch error. -/
theorem C3_digest_equality :
    (∀ d : CDSData, d.Equals none = false) ∧
    (∀ d : SignedCDSData, d.Equals none = false) ∧
    (∀ d o : CDSData, d.Equals (some o) = true ↔ d = o) ∧
    (∀ d o : SignedCDSData, d.Equals (some o) = true ↔ d = o) ∧
    (∀ (buf : Bytes) (depSpec : ChaincodeDeploymentSpec) (data otherdata : CDSData)
      (cd : ChaincodeData),
      cd.Name = depSpec.chaincodeSpec.chaincodeId.Name →
      cd.Version = depSpec.chaincodeSpec.chaincodeId.Version →
      unmarshalCDSData cd.Data = some otherdata → otherdata ≠ data →
      CDSPackage.ValidateCC ⟨some buf, some depSpec, some data⟩ cd = .err .dataMismatch) ∧
    (∀ (buf : Bytes) (depSpec : ChaincodeDeploymentSpec)
      (scds : SignedChaincodeDeploymentSpec) (env : Envelope)
      (data otherdata : SignedCDSData) (cd : ChaincodeData),
      scds.ChaincodeDeploymentSpec ≠ [] →
      cd.Name = depSpec.chaincodeSpec.chaincodeId.Name →
      cd.Version = depSpec.chaincodeSpec.chaincodeId.Version →
      unmarshalSignedCDSData cd.Data = some otherdata → otherdata ≠ data →
      SignedCDSPackage.ValidateCC ⟨some buf, some depSpec, some scds, some env, some data⟩ cd =
        .err .dataMismatch) := by
  refine ⟨fun d => rfl, fun d => rfl, cdsData_equals_some_iff, signedCDSData_equals_some_iff,
    ?_, ?_⟩
  · intro buf depSpec data otherdata cd hName hVer hdec hne
    rw [unsigned_validateCC_initialized buf depSpec data otherdata cd hName hVer hdec,
      if_neg (fun hc => hne hc.symm)]
  · intro buf depSpec scds env data otherdata cd hb hName hVer hdec hne
    rw [signed_validateCC_initialized buf depSpec scds env data otherdata cd hb
      hName hVer hdec, if_neg (fun hc => hne hc.symm)]

/-- Witness for C3: corrupting the digest record makes validation of the
concrete scenario fail with the data-mismatch error, in both variants. -/
theorem C3_digest_equality_witness :
    CDSPackage.ValidateCC ⟨some bufEx, some specEx, some dataEx⟩
      ⟨[109, 121, 99, 99], [49, 46, 48], marshalCDSData ⟨[1], [2]⟩⟩ = .err .dataMismatch ∧
    SignedCDSPackage.ValidateCC
      ⟨some sigBufEx, some specEx, some scdsEx, some ⟨6 :: marshalSignedCDS scdsEx⟩,
        some sigDataEx⟩
      ⟨[109, 121, 99, 99], [49, 46, 48], marshalSignedCDSData ⟨[1], [2], [3]⟩⟩ =
      .err .dataMismatch :=
  ⟨C3_digest_equality.2.2.2.2.1 bufEx specEx dataEx ⟨[1], [2]⟩
      ⟨[109, 121, 99, 99], [49, 46, 48], marshalCDSData ⟨[1], [2]⟩⟩
      rfl rfl (by decide) (by decide),
    C3_digest_equality.2.2.2.2.2 sigBufEx specEx scdsEx ⟨6 :: marshalSignedCDS scdsEx⟩
      sigDataEx ⟨[1], [2], [3]⟩
      ⟨[109, 121, 99, 99], [49, 46, 48], marshalSignedCDSData ⟨[1], [2], [3]⟩⟩
      (by decide) rfl rfl (by decide) (by decide)⟩

/-- Claim C9: on an initialized package of either variant, a Name or Version
differing from the package's identity makes ValidateCC fail with the
identity-mismatch error for every supplied Data (decodable or not, so before
any decode or digest comparison), and the digest comparison is reached only
when both Name and Version match exactly. -/
theorem C9_identity_precheck :
    (∀ (buf : Bytes) (depSpec : ChaincodeDeploymentSpec) (data : CDSData)
      (cd : ChaincodeData),
      (cd.Name ≠ depSpec.chaincodeSpec.chaincodeId.Name ∨
        cd.Version ≠ depSpec.chaincodeSpec.chaincodeId.Version) →
      CDSPackage.ValidateCC ⟨some buf, some depSpec, some data⟩ cd =
        .err .invalidChaincodeData) ∧
    (∀ (buf : Bytes) (depSpec : ChaincodeDeploymentSpec) (data : CDSData)
      (cd : ChaincodeData),
      CDSPackage.ValidateCC ⟨some buf, some depSpec, some data⟩ cd ≠
        .err .invalidChaincodeData →
      cd.Name = depSpec.chaincodeSpec.chaincodeId.Name ∧
        cd.Version = depSpec.chaincodeSpec.chaincodeId.Version) ∧
    (∀ (buf : Bytes) (depSpec : ChaincodeDeploymentSpec)
      (scds : SignedChaincodeDeploymentSpec) (env : Envelope) (data : SignedCDSData)
      (cd : ChaincodeData),
      scds.ChaincodeDeploymentSpec ≠ [] →
      (cd.Name ≠ depSpec.chaincodeSpec.chaincodeId.Name ∨
        cd.Version ≠ depSpec.chaincodeSpec.chaincodeId.Version) →
      SignedCDSPackage.ValidateCC ⟨some buf, some depSpec, some scds, some env, some data⟩
        cd = .err .invalidChaincodeData) ∧
    (∀ (buf : Bytes) (depSpec : ChaincodeDeploymentSpec)
      (scds : SignedChaincodeDeploymentSpec) (env : Envelope) (data : SignedCDSData)
      (cd : ChaincodeData),
      scds.ChaincodeDeploymentSpec ≠ [] →
      SignedCDSPackage.ValidateCC ⟨some buf, some depSpec, some scds, some env, some data⟩
        cd ≠ .err .invalidChaincodeData →
      cd.Name = depSpec.chaincodeSpec.chaincodeId.Name ∧
        cd.Version = depSpec.chaincodeSpec.chaincodeId.Version) := by
  have unsigned : ∀ (buf : Bytes) (depSpec : ChaincodeDeploymentSpec) (data : CDSData)
      (cd : ChaincodeData),
      (cd.Name ≠ depSpec.chaincodeSpec.chaincodeId.Name ∨
        cd.Version ≠ depSpec.chaincodeSpec.chaincodeId.Version) →
      CDSPackage.ValidateCC ⟨some buf, some depSpec, some data⟩ cd =
        .err .invalidChaincodeData := by
    intro buf depSpec data cd h
    simp only [CDSPackage.ValidateCC]
    rw [if_pos h]
  have signed : ∀ (buf : Bytes) (depSpec : ChaincodeDeploymentSpec)
      (scds : SignedChaincodeDeploymentSpec) (env : Envelope) (data : SignedCDSData)
      (cd : ChaincodeData),
      scds.ChaincodeDeploymentSpec ≠ [] →
      (cd.Name ≠ depSpec.chaincodeSpec.chaincodeId.Name ∨
        cd.Version ≠ depSpec.chaincodeSpec.chaincodeId.Version) →
      SignedCDSPackage.ValidateCC ⟨some buf, some depSpec, some scds, some env, some data⟩
        cd = .err .invalidChaincodeData := by
    intro buf depSpec scds env data cd hb h
    simp only [SignedCDSPackage.ValidateCC]
    rw [if_neg hb, if_pos h]
  refine ⟨unsigned, ?_, signed, ?_⟩
  · intro buf depSpec data cd h
    by_cases hn : cd.Name = depSpec.chaincodeSpec.chaincodeId.Name
    · by_cases hv : cd.Version = depSpec.chaincodeSpec.chaincodeId.Version
      · exact ⟨hn, hv⟩
      · exact absurd (unsigned buf depSpec data cd (Or.inr hv)) h
    · exact absurd (unsigned buf depSpec data cd (Or.inl hn)) h
  · intro buf depSpec scds env data cd hb h
    by_cases hn : cd.Name = depSpec.chaincodeSpec.chaincodeId.Name
    · by_cases hv : cd.Version = depSpec.chaincodeSpec.chaincodeId.Version
      · exact ⟨hn, hv⟩
      · exact absurd (signed buf depSpec scds env data cd hb (Or.inr hv)) h
    · exact absurd (signed buf depSpec scds env data cd hb (Or.inl hn)) h

/-- Witness for C9: on the concrete scenario, version 1.1 with undecodable
Data bytes fails with the identity-mismatch error in both variants. -/
theorem C9_identity_precheck_witness :
    CDSPackage.ValidateCC ⟨some bufEx, some specEx, some dataEx⟩
      ⟨[109, 121, 99, 99], [49, 46, 49], [9]⟩ = .err .invalidChaincodeData ∧
    SignedCDSPackage.ValidateCC
      ⟨some sigBufEx, some specEx, some scdsEx, some ⟨6 :: marshalSignedCDS scdsEx⟩,
        some sigDataEx⟩
      ⟨[109, 121, 99, 99], [49, 46, 49], [9]⟩ = .err .invalidChaincodeData :=
  ⟨C9_identity_precheck.1 bufEx specEx dataEx ⟨[109, 121, 99, 99], [49, 46, 49], [9]⟩
      (Or.inr (by decide)),
    C9_identity_precheck.2.2.1 sigBufEx specEx scdsEx ⟨6 :: marshalSignedCDS scdsEx⟩
      sigDataEx ⟨[109, 121, 99, 99], [49, 46, 49], [9]⟩ (by decide) (Or.inr (by decide))⟩

/-- Claim C8: for both variants, PutChaincodeToFS fails with the
already-exists error and leaves the store unchanged whenever a package is
already stored at the path derived from the package's name and version
(whatever its bytes, identical ones included); hence a second call after a
successful one always fails. -/
theorem C8_write_once :
    (∀ (ip buf : Bytes) (depSpec : ChaincodeDeploymentSpec) (data : CDSData) (fs : FS)
      (x : Bytes),
      fs (ccPath ip depSpec.chaincodeSpec.chaincodeId.Name
        depSpec.chaincodeSpec.chaincodeId.Version) = some x →
      CDSPackage.PutChaincodeToFS ip ⟨some buf, some depSpec, some data⟩ fs =
        (.err .chaincodeExists, fs)) ∧
    (∀ (ip : Bytes) (p : CDSPackage) (fs fs1 : FS),
      p.PutChaincodeToFS ip fs = (.ok (), fs1) →
      p.PutChaincodeToFS ip fs1 = (.err .chaincodeExists, fs1)) ∧
    (∀ (ip buf : Bytes) (depSpec : ChaincodeDeploymentSpec)
      (scds : SignedChaincodeDeploymentSpec) (env : Envelope) (data : SignedCDSData)
      (fs : FS) (x : Bytes),
      fs (ccPath ip depSpec.chaincodeSpec.chaincodeId.Name
        depSpec.chaincodeSpec.chaincodeId.Version) = some x →
      SignedCDSPackage.PutChaincodeToFS ip
        ⟨some buf, some depSpec, some scds, some env, some data⟩ fs =
        (.err .chaincodeExists, fs)) ∧
    (∀ (ip : Bytes) (p : SignedCDSPackage) (fs fs1 : FS),
      p.PutChaincodeToFS ip fs = (.ok (), fs1) →
      p.PutChaincodeToFS ip fs1 = (.err .chaincodeExists, fs1)) := by
  have u1 : ∀ (ip buf : Bytes) (depSpec : ChaincodeDeploymentSpec) (data : CDSData)
      (fs : FS) (x : Bytes),
      fs (ccPath ip depSpec.chaincodeSpec.chaincodeId.Name
        depSpec.chaincodeSpec.chaincodeId.Version) = some x →
      CDSPackage.PutChaincodeToFS ip ⟨some buf, some depSpec, some data⟩ fs =
        (.err .chaincodeExists, fs) := by
    intro ip buf depSpec data fs x hfs
    simp only [CDSPackage.PutChaincodeToFS, hfs]
  have s1 : ∀ (ip buf : Bytes) (depSpec : ChaincodeDeploymentSpec)
      (scds : SignedChaincodeDeploymentSpec) (env : Envelope) (data : SignedCDSData)
      (fs : FS) (x : Bytes),
      fs (ccPath ip depSpec.chaincodeSpec.chaincodeId.Name
        depSpec.chaincodeSpec.chaincodeId.Version) = some x →
      SignedCDSPackage.PutChaincodeToFS ip
        ⟨some buf, some depSpec, some scds, some env, some data⟩ fs =
        (.err .chaincodeExists, fs) := by
    intro ip buf depSpec scds env data fs x hfs
    simp only [SignedCDSPackage.PutChaincodeToFS, hfs]
    simp
  refine ⟨u1, ?_, s1, ?_⟩
  · intro ip p fs fs1 h
    cases p with
    | mk obuf odep odata =>
      cases obuf with
      | none => simp [CDSPackage.PutChaincodeToFS] at h
      | some buf =>
        cases odep with
        | none => simp [CDSPackage.PutChaincodeToFS] at h
        | some depSpec =>
          cases odata with
          | none => simp [CDSPackage.PutChaincodeToFS] at h
          | some data =>
            cases hfs : fs (ccPath ip depSpec.chaincodeSpec.chaincodeId.Name
                depSpec.chaincodeSpec.chaincodeId.Version) with
            | some x => simp only [CDSPackage.PutChaincodeToFS, hfs] at h; simp at h
            | none =>
              simp only [CDSPackage.PutChaincodeToFS, hfs, Prod.mk.injEq] at h
              rw [← h.2]
              exact u1 ip buf depSpec data (fsWrite fs (ccPath ip
                depSpec.chaincodeSpec.chaincodeId.Name
                depSpec.chaincodeSpec.chaincodeId.Version) buf) buf (by simp [fsWrite])
  · intro ip p fs fs1 h
    cases p with
    | mk obuf odep osdep oenv odata =>
      cases obuf with
      | none => simp [SignedCDSPackage.PutChaincodeToFS] at h
      | some buf =>
        cases osdep with
        | none => simp [SignedCDSPackage.PutChaincodeToFS] at h
        | some scds =>
          cases odep with
          | none => simp [SignedCDSPackage.PutChaincodeToFS] at h
          | some depSpec =>
            cases oenv with
            | none => simp [SignedCDSPackage.PutChaincodeToFS] at h
            | some env =>
              cases odata with
              | none => simp [SignedCDSPackage.PutChaincodeToFS] at h
              | some data =>
                cases hfs : fs (ccPath ip depSpec.chaincodeSpec.chaincodeId.Name
                    depSpec.chaincodeSpec.chaincodeId.Version) with
                | some x =>
                  simp only [SignedCDSPackage.PutChaincodeToFS, hfs] at h
                  simp at h
                | none =>
                  simp only [SignedCDSPackage.PutChaincodeToFS, hfs] at h
                  simp only [Option.some_ne_none, or_self, if_false, Prod.mk.injEq] at h
                  rw [← h.2]
                  exact s1 ip buf depSpec scds env data (fsWrite fs (ccPath ip
                    depSpec.chaincodeSpec.chaincodeId.Name
                    depSpec.chaincodeSpec.chaincodeId.Version) buf) buf (by simp [fsWrite])

/-- Witness for C8: after the first successful install of the concrete
scenario package into an empty store, the second call fails with the
already-exists error and leaves the store as it was, in both variants. -/
theorem C8_write_once_witness :
    CDSPackage.PutChaincodeToFS [116] stEx
        (fsWrite fsEmpty (ccPath [116] [109, 121, 99, 99] [49, 46, 48]) bufEx) =
      (.err .chaincodeExists,
        fsWrite fsEmpty (ccPath [116] [109, 121, 99, 99] [49, 46, 48]) bufEx) ∧
    SignedCDSPackage.PutChaincodeToFS [116] sigStEx
        (fsWrite fsEmpty (ccPath [116] [109, 121, 99, 99] [49, 46, 48]) sigBufEx) =
      (.err .chaincodeExists,
        fsWrite fsEmpty (ccPath [116] [109, 121, 99, 99] [49, 46, 48]) sigBufEx) :=
  ⟨C8_write_once.2.1 [116] stEx fsEmpty
      (fsWrite fsEmpty (ccPath [116] [109, 121, 99, 99] [49, 46, 48]) bufEx) rfl,
    C8_write_once.2.2.2 [116] sigStEx fsEmpty
      (fsWrite fsEmpty (ccPath [116] [109, 121, 99, 99] [49, 46, 48]) sigBufEx) rfl⟩

/-- Claim C1: for every buffer on which InitFromBuffer succeeds (it decodes as
a valid deployment spec, resp. a valid signed-package envelope), ValidateCC
applied to the very ChaincodeData that InitFromBuffer returned succeeds on the
resulting package and returns the deployment spec decoded from the buffer. -/
theorem C1_roundtrip :
    (∀ (H : Bytes → Bytes) (p p2 : CDSPackage) (buf : Bytes) (cd : ChaincodeData),
      CDSPackage.InitFromBuffer H p buf = (.ok cd, p2) →
      ∃ spec, unmarshalCDS buf = some spec ∧ p2.ValidateCC cd = .ok spec) ∧
    (∀ (H : Bytes → Bytes) (p p2 : SignedCDSPackage) (buf : Bytes) (cd : ChaincodeData),
      SignedCDSPackage.InitFromBuffer H p buf = (.ok cd, p2) →
      ∃ env cHdr scds spec, unmarshalEnvelope buf = some env ∧
        ExtractSignedCCDepSpec env = .ok (cHdr, scds) ∧
        unmarshalCDS scds.ChaincodeDeploymentSpec = some spec ∧
        p2.ValidateCC cd = .ok spec) := by
  constructor
  · intro H p p2 buf cd h
    simp only [CDSPackage.InitFromBuffer] at h
    cases hdec : unmarshalCDS buf with
    | none => rw [hdec] at h; simp at h
    | some depSpec =>
      rw [hdec] at h
      simp only [CDSPackage.getCDSData, Prod.mk.injEq, GoResult.ok.injEq] at h
      obtain ⟨hcd, hp⟩ := h
      subst hp
      subst hcd
      refine ⟨depSpec, rfl, ?_⟩
      rw [unsigned_validateCC_initialized buf depSpec (cdsDataOf H depSpec)
        (cdsDataOf H depSpec) _ rfl rfl (unmarshalCDSData_marshalCDSData _), if_pos rfl]
  · intro H p p2 buf cd h
    cases henv : unmarshalEnvelope buf with
    | none => simp [SignedCDSPackage.InitFromBuffer, henv] at h
    | some env =>
      cases hext : ExtractSignedCCDepSpec env with
      | err e => simp [SignedCDSPackage.InitFromBuffer, henv, hext] at h
      | panicked => simp [SignedCDSPackage.InitFromBuffer, henv, hext] at h
      | ok pr =>
        obtain ⟨cHdr, scds⟩ := pr
        by_cases ht : cHdr.headerType = HeaderType.chaincodePackage
        · cases hdec : unmarshalCDS scds.ChaincodeDeploymentSpec with
          | none => simp [SignedCDSPackage.InitFromBuffer, henv, hext, ht, hdec] at h
          | some depSpec =>
            cases hg : SignedCDSPackage.getCDSData H (some scds) with
            | panicked => simp [SignedCDSPackage.InitFromBuffer, henv, hext, ht, hdec, hg] at h
            | err e => simp [SignedCDSPackage.InitFromBuffer, henv, hext, ht, hdec, hg] at h
            | ok pr2 =>
              obtain ⟨databytes, data⟩ := pr2
              simp only [SignedCDSPackage.InitFromBuffer, henv, hext, ht, ne_eq,
                not_true_eq_false, if_false, hdec, hg, Prod.mk.injEq, GoResult.ok.injEq] at h
              obtain ⟨hcd, hp⟩ := h
              obtain ⟨cds2, pol, hdec2, hpol, hd, hb⟩ :=
                signed_getCDSData_ok H scds databytes data hg
              have hbytes : scds.ChaincodeDeploymentSpec ≠ [] := by
                intro hc
                rw [hc, unmarshalCDS_nil] at hdec
                exact Option.noConfusion hdec
              subst hp
              subst hcd
              refine ⟨env, cHdr, scds, depSpec, rfl, hext, hdec, ?_⟩
              rw [signed_validateCC_initialized buf depSpec scds env data data _
                hbytes rfl rfl (by rw [hb]; exact unmarshalSignedCDSData_marshalSignedCDSData _),
                if_pos rfl]
        · simp [SignedCDSPackage.InitFromBuffer, henv, hext, ht] at h

/-- Witness for C1: the concrete scenario round-trips in both variants. -/
theorem C1_roundtrip_witness :
    (∃ spec, unmarshalCDS bufEx = some spec ∧
      CDSPackage.ValidateCC stEx cdEx = .ok spec) ∧
    (∃ env cHdr scds spec, unmarshalEnvelope sigBufEx = some env ∧
      ExtractSignedCCDepSpec env = .ok (cHdr, scds) ∧
      unmarshalCDS scds.ChaincodeDeploymentSpec = some spec ∧
      SignedCDSPackage.ValidateCC sigStEx sigCdEx = .ok spec) :=
  ⟨C1_roundtrip.1 Hex CDSPackage.cleared stEx bufEx cdEx (by decide),
    C1_roundtrip.2 Hex SignedCDSPackage.cleared sigStEx sigBufEx sigCdEx (by decide)⟩

/-- Claim C4 (code bug): after a successful load, a failed signed-variant
InitFromFS (store fetch fails) leaves the package with the digest-record
field still holding the previous load's record — the source clears buf,
sDepSpec, depSpec and env but omits data — so the package is not fully
cleared as the claim requires (the unsigned variant and both InitFromBuffer
paths do clear every field). -/
theorem C4_stale_data_bug :
    SignedCDSPackage.InitFromBuffer Hex SignedCDSPackage.cleared sigBufEx =
      (.ok sigCdEx, sigStEx) ∧
    (SignedCDSPackage.InitFromFS Hex [116] fsEmpty sigStEx [110] [118]).1 =
      .err .notFound ∧
    (SignedCDSPackage.InitFromFS Hex [116] fsEmpty sigStEx [110] [118]).2 =
      ⟨none, none, none, none, some sigDataEx⟩ ∧
    (SignedCDSPackage.InitFromFS Hex [116] fsEmpty sigStEx [110] [118]).2 ≠
      SignedCDSPackage.cleared := by
  decide

theorem unsigned_getCDSData_no_panic (H : Bytes → Bytes) (cds : ChaincodeDeploymentSpec) :
    CDSPackage.getCDSData H (some cds) ≠ .panicked := by
  simp [CDSPackage.getCDSData]

theorem signed_getCDSData_no_panic (H : Bytes → Bytes)
    (scds : SignedChaincodeDeploymentSpec) :
    SignedCDSPackage.getCDSData H (some scds) ≠ .panicked := by
  simp only [SignedCDSPackage.getCDSData]
  cases unmarshalCDS scds.ChaincodeDeploymentSpec with
  | none => simp
  | some cds =>
    cases scds.InstantiationPolicy with
    | none => simp
    | some pol => simp

theorem extract_no_panic (env : Envelope) : ExtractSignedCCDepSpec env ≠ .panicked := by
  simp only [ExtractSignedCCDepSpec]
  cases env.content with
  | nil => simp
  | cons t rest =>
    cases hu : unmarshalSignedCDS rest with
    | none => simp [hu]
    | some s => simp [hu]

theorem getChaincodePackage_no_panic (ip : Bytes) (fs : FS) (n v : Bytes) :
    GetChaincodePackage ip fs n v ≠ .panicked := by
  simp only [GetChaincodePackage]
  cases hf : fs (ccPath ip n v) with
  | none => simp [hf]
  | some b => simp [hf]

theorem unsigned_initFromBuffer_no_panic (H : Bytes → Bytes) (p : CDSPackage) (buf : Bytes) :
    (CDSPackage.InitFromBuffer H p buf).1 ≠ .panicked := by
  simp only [CDSPackage.InitFromBuffer]
  cases hdec : unmarshalCDS buf with
  | none => simp [hdec]
  | some depSpec => simp [hdec, CDSPackage.getCDSData]

theorem signed_initFromBuffer_no_panic (H : Bytes → Bytes) (p : SignedCDSPackage)
    (buf : Bytes) : (SignedCDSPackage.InitFromBuffer H p buf).1 ≠ .panicked := by
  simp only [SignedCDSPackage.InitFromBuffer]
  cases henv : unmarshalEnvelope buf with
  | none => simp [henv]
  | some env =>
    cases hext : ExtractSignedCCDepSpec env with
    | err e => simp [henv, hext]
    | panicked => exact absurd hext (extract_no_panic env)
    | ok pr =>
      obtain ⟨cHdr, scds⟩ := pr
      by_cases ht : cHdr.headerType = HeaderType.chaincodePackage
      · cases hdec : unmarshalCDS scds.ChaincodeDeploymentSpec with
        | none => simp [henv, hext, ht, hdec]
        | some depSpec =>
          cases hg : SignedCDSPackage.getCDSData H (some scds) with
          | panicked => exact absurd hg (signed_getCDSData_no_panic H scds)
          | err e => simp [henv, hext, ht, hdec, hg]
          | ok pr2 => simp [henv, hext, ht, hdec, hg]
      · simp [henv, hext, ht]

theorem unsigned_initFromFS_no_panic (H : Bytes → Bytes) (ip : Bytes) (fs : FS)
    (p : CDSPackage) (n v : Bytes) :
    (CDSPackage.InitFromFS H ip fs p n v).1 ≠ .panicked := by
  simp only [CDSPackage.InitFromFS]
  cases hfetch : GetChaincodePackage ip fs n v with
  | err e => simp [hfetch]
  | panicked => exact absurd hfetch (getChaincodePackage_no_panic ip fs n v)
  | ok buf =>
    cases hdec : unmarshalCDS buf with
    | none => simp [hfetch, hdec]
    | some depSpec => simp [hfetch, hdec, CDSPackage.getCDSData]

theorem signed_initFromFS_no_panic (H : Bytes → Bytes) (ip : Bytes) (fs : FS)
    (p : SignedCDSPackage) (n v : Bytes) :
    (SignedCDSPackage.InitFromFS H ip fs p n v).1 ≠ .panicked := by
  simp only [SignedCDSPackage.InitFromFS]
  cases hfetch : GetChaincodePackage ip fs n v with
  | err e => simp [hfetch]
  | panicked => exact absurd hfetch (getChaincodePackage_no_panic ip fs n v)
  | ok buf =>
    cases hinit : SignedCDSPackage.InitFromBuffer H ⟨none, none, none, none, p.data⟩ buf with
    | mk r st =>
      cases r with
      | ok cd => simp [hfetch, hinit]
      | err e => simp [hfetch, hinit]
      | panicked =>
        have := signed_initFromBuffer_no_panic H ⟨none, none, none, none, p.data⟩ buf
        rw [hinit] at this
        exact absurd rfl this

theorem unsigned_put_no_panic (ip : Bytes) (p : CDSPackage) (fs : FS) :
    (p.PutChaincodeToFS ip fs).1 ≠ .panicked := by
  cases p with
  | mk obuf odep odata =>
    simp only [CDSPackage.PutChaincodeToFS]
    cases obuf with
    | none => simp
    | some buf =>
      cases odep with
      | none => simp
      | some depSpec =>
        cases odata with
        | none => simp
        | some data =>
          cases hfs : fs (ccPath ip depSpec.chaincodeSpec.chaincodeId.Name
              depSpec.chaincodeSpec.chaincodeId.Version) with
          | none => simp [hfs]
          | some x => simp [hfs]

theorem signed_put_no_panic (ip : Bytes) (p : SignedCDSPackage) (fs : FS) :
    (p.PutChaincodeToFS ip fs).1 ≠ .panicked := by
  simp only [SignedCDSPackage.PutChaincodeToFS]
  repeat' split
  all_goals simp

theorem unsigned_validateCC_no_panic (p : CDSPackage) (cd : ChaincodeData) :
    p.ValidateCC cd ≠ .panicked := by
  simp only [CDSPackage.ValidateCC]
  repeat' split
  all_goals simp

theorem signed_validateCC_no_panic (p : SignedCDSPackage)
    (hinv : p.sDepSpec = none ∨ p.data.isSome) (cd : ChaincodeData) :
    p.ValidateCC cd ≠ .panicked := by
  cases p with
  | mk obuf odep osdep oenv odata =>
    simp only [SignedCDSPackage.ValidateCC]
    cases osdep with
    | none => simp
    | some scds =>
      rcases hinv with h | h
      · exact absurd h (by simp)
      · cases odata with
        | none => simp at h
        | some data =>
          repeat' split
          all_goals simp_all

theorem signed_initFromBuffer_state (H : Bytes → Bytes) (p : SignedCDSPackage)
    (buf : Bytes) :
    (SignedCDSPackage.InitFromBuffer H p buf).2 = SignedCDSPackage.cleared ∨
    ∃ b d s e dt, (SignedCDSPackage.InitFromBuffer H p buf).2 =
      ⟨some b, some d, some s, some e, some dt⟩ := by
  simp only [SignedCDSPackage.InitFromBuffer]
  cases henv : unmarshalEnvelope buf with
  | none => left; simp [henv]
  | some env =>
    cases hext : ExtractSignedCCDepSpec env with
    | err e => left; simp [henv, hext]
    | panicked => left; simp [henv, hext]
    | ok pr =>
      obtain ⟨cHdr, scds⟩ := pr
      by_cases ht : cHdr.headerType = HeaderType.chaincodePackage
      · cases hdec : unmarshalCDS scds.ChaincodeDeploymentSpec with
        | none => left; simp [henv, hext, ht, hdec]
        | some depSpec =>
          cases hg : SignedCDSPackage.getCDSData H (some scds) with
          | panicked => left; simp [henv, hext, ht, hdec, hg]
          | err e => left; simp [henv, hext, ht, hdec, hg]
          | ok pr2 =>
            obtain ⟨databytes, data⟩ := pr2
            right
            exact ⟨buf, depSpec, scds, env, data, by simp [henv, hext, ht, hdec, hg]⟩
      · left; simp [henv, hext, ht]

theorem signed_initFromFS_state (H : Bytes → Bytes) (ip : Bytes) (fs : FS)
    (p : SignedCDSPackage) (n v : Bytes) :
    (SignedCDSPackage.InitFromFS H ip fs p n v).2 = ⟨none, none, none, none, p.data⟩ ∨
    ∃ buf, (SignedCDSPackage.InitFromFS H ip fs p n v).2 =
      (SignedCDSPackage.InitFromBuffer H ⟨none, none, none, none, p.data⟩ buf).2 := by
  simp only [SignedCDSPackage.InitFromFS]
  cases hfetch : GetChaincodePackage ip fs n v with
  | err e => left; simp [hfetch]
  | panicked => left; simp [hfetch]
  | ok buf =>
    right
    refine ⟨buf, ?_⟩
    cases hinit : SignedCDSPackage.InitFromBuffer H ⟨none, none, none, none, p.data⟩ buf with
    | mk r st =>
      cases r with
      | ok cd => simp [hfetch, hinit]
      | err e => simp [hfetch, hinit]
      | panicked => simp [hfetch, hinit]

theorem signed_reach_data (p : SignedCDSPackage) (h : SignedCDSReach p) :
    p.sDepSpec = none ∨ p.data.isSome := by
  induction h with
  | fresh => left; rfl
  | initFromBuffer H p buf hp ih =>
    rcases signed_initFromBuffer_state H p buf with h1 | ⟨b, d, s, e, dt, h1⟩
    · rw [h1]; left; rfl
    · rw [h1]; right; rfl
  | initFromFS H ip fs p n v hp ih =>
    rcases signed_initFromFS_state H ip fs p n v with h1 | ⟨buf, h1⟩
    · rw [h1]; left; rfl
    · rw [h1]
      rcases signed_initFromBuffer_state H ⟨none, none, none, none, p.data⟩ buf with
        h2 | ⟨b, d, s, e, dt, h2⟩
      · rw [h2]; left; rfl
      · rw [h2]; right; rfl

/-- Claim C10: starting from a fresh package, no sequence of the public
operations can make getCDSData take its panic branch (its argument is always
a freshly decoded non-nil spec) or make ValidateCC dereference a nil digest
record: whenever the signed ValidateCC initialization guards pass on a
reachable state, the digest-record field is populated, so no public
operation ever yields the panic outcome. -/
theorem C10_no_panic :
    (∀ p : CDSPackage, CDSReach p →
      (∀ cd, p.ValidateCC cd ≠ .panicked) ∧
      (∀ (H : Bytes → Bytes) (buf : Bytes),
        (CDSPackage.InitFromBuffer H p buf).1 ≠ .panicked) ∧
      (∀ (H : Bytes → Bytes) (ip : Bytes) (fs : FS) (n v : Bytes),
        (CDSPackage.InitFromFS H ip fs p n v).1 ≠ .panicked) ∧
      (∀ (ip : Bytes) (fs : FS), (p.PutChaincodeToFS ip fs).1 ≠ .panicked)) ∧
    (∀ p : SignedCDSPackage, SignedCDSReach p →
      (∀ cd, p.ValidateCC cd ≠ .panicked) ∧
      (∀ (H : Bytes → Bytes) (buf : Bytes),
        (SignedCDSPackage.InitFromBuffer H p buf).1 ≠ .panicked) ∧
      (∀ (H : Bytes → Bytes) (ip : Bytes) (fs : FS) (n v : Bytes),
        (SignedCDSPackage.InitFromFS H ip fs p n v).1 ≠ .panicked) ∧
      (∀ (ip : Bytes) (fs : FS), (p.PutChaincodeToFS ip fs).1 ≠ .panicked)) ∧
    (∀ (H : Bytes → Bytes) (cds : ChaincodeDeploymentSpec),
      CDSPackage.getCDSData H (some cds) ≠ .panicked) ∧
    (∀ (H : Bytes → Bytes) (scds : SignedChaincodeDeploymentSpec),
      SignedCDSPackage.getCDSData H (some scds) ≠ .panicked) := by
  refine ⟨?_, ?_, unsigned_getCDSData_no_panic, signed_getCDSData_no_panic⟩
  · intro p hp
    exact ⟨unsigned_validateCC_no_panic p,
      fun H buf => unsigned_initFromBuffer_no_panic H p buf,
      fun H ip fs n v => unsigned_initFromFS_no_panic H ip fs p n v,
      fun ip fs => unsigned_put_no_panic ip p fs⟩
  · intro p hp
    exact ⟨signed_validateCC_no_panic p (signed_reach_data p hp),
      fun H buf => signed_initFromBuffer_no_panic H p buf,
      fun H ip fs n v => signed_initFromFS_no_panic H ip fs p n v,
      fun ip fs => signed_put_no_panic ip p fs⟩

/-- Witness for C10: the fresh packages of both variants are reachable and
validation on them does not panic. -/
theorem C10_no_panic_witness :
    CDSPackage.cleared.ValidateCC ⟨[], [], []⟩ ≠ .panicked ∧
    SignedCDSPackage.cleared.ValidateCC ⟨[], [], []⟩ ≠ .panicked :=
  ⟨(C10_no_panic.1 CDSPackage.cleared CDSReach.fresh).1 ⟨[], [], []⟩,
    (C10_no_panic.2.1 SignedCDSPackage.cleared SignedCDSReach.fresh).1 ⟨[], [], []⟩⟩
